import Mathlib

/-!
Shallow embedding of the FedLab coordination core: the parameter-server
handlers of `fedlab_core/server/handler.py` and the client communication
loop of `fedlab_core/client/topology.py`. Parameter vectors are modelled
as lists of rationals. Python list indexing (including negative indices)
and the failure behaviour of the torch operations used by the handlers
(`torch.stack`, `torch.mean`, in-place slice assignment) are modelled
explicitly: a call returns the handler state as it is when an exception
propagates, paired with `some e` naming the exception, or with `none`
on a normal return.
-/

/-- Modelled from the spec: the `MessageCode` enumeration of
`fedlab_core.utils.messaging` is not among the sources; the spec fixes the
message kinds as exactly ParameterUpdate, ParameterRequest, GradientUpdate
and Exit. -/
inductive MessageCode where
  | ParameterUpdate
  | ParameterRequest
  | GradientUpdate
  | Exit
deriving DecidableEq

/-- Python exceptions raised by the embedded code paths. -/
inductive PyError where
  | indexError
  | typeError
  | runtimeError
  | notImplementedError
  | undefinedMessageType
deriving DecidableEq

/-- Resolve a Python list index for a list of length `n`: a negative index
counts from the end; `none` means the access raises IndexError. -/
def pyIndex (n : ℕ) (i : ℤ) : Option ℕ :=
  if 0 ≤ i ∧ i < (n : ℤ) then some i.toNat
  else if -(n : ℤ) ≤ i ∧ i < 0 then some ((n : ℤ) + i).toNat
  else none

/-- Python `l[i]` as a read. -/
def pyGet {α : Type} (l : List α) (i : ℤ) : Option α :=
  match pyIndex l.length i with
  | some j => l[j]?
  | none => none

/-- Python `l[i] = a`. In the embedded code every write is preceded by a
successful read at the same index, so the out-of-range case is never hit;
it is modelled as leaving the list unchanged. -/
def pySet {α : Type} (l : List α) (i : ℤ) (a : α) : List α :=
  match pyIndex l.length i with
  | some j => l.set j a
  | none => l

/-- Elementwise sum of two vectors (torch tensor addition; in the embedded
code both operands always have equal length). -/
def vecAdd (a b : List ℚ) : List ℚ := List.zipWith (· + ·) a b

/-- Elementwise sum of a stack of vectors. -/
def sumVecs : List (List ℚ) → List ℚ
  | [] => []
  | [v] => v
  | v :: w :: vs => vecAdd v (sumVecs (w :: vs))

/-- Elementwise arithmetic mean of a stack of vectors. -/
def meanVecs (vs : List (List ℚ)) : List ℚ :=
  (sumVecs vs).map (fun x => x / (vs.length : ℚ))

/-- Extract the entries of the client buffer cache in slot order; `none`
when some slot is still empty (`torch.stack` of a list containing `None`
raises TypeError). -/
def seqCache : List (Option (List ℚ)) → Option (List (List ℚ))
  | [] => some []
  | none :: _ => none
  | some v :: rest =>
    match seqCache rest with
    | some vs => some (v :: vs)
    | none => none

/-- Model of `torch.mean(torch.stack(cache), dim=0)`: fails when a slot is
`None`, when the cache is empty, or when the stacked vectors are ragged;
otherwise the elementwise arithmetic mean of all cache entries. -/
def stackMean (cache : List (Option (List ℚ))) : Option (List ℚ) :=
  match seqCache cache with
  | none => none
  | some [] => none
  | some (v :: vs) =>
    if vs.all (fun w => w.length = v.length) then some (meanVecs (v :: vs))
    else none

/-- Abstract base method `ParameterServerHandler.receive`: raises
NotImplementedError. -/
def ParameterServerHandler.receive : Except PyError Unit :=
  .error .notImplementedError

/-- Abstract base method `ParameterServerHandler.update`: raises
NotImplementedError. -/
def ParameterServerHandler.update : Except PyError Unit :=
  .error .notImplementedError

/-- State of `SyncParameterServerHandler`. `buffer` is `self._buffer`
(the raveled global parameter vector) and `model` stands for the
externally managed model handle, represented by its raveled parameters
(`unravel_model_params(self._model, self._buffer)` makes it equal to
`buffer`). -/
structure SyncParameterServerHandler where
  client_num : ℕ
  select_ratio : ℚ
  round_num : ℕ
  buffer : List ℚ
  model : List ℚ
  client_buffer_cache : List (Option (List ℚ))
  buffer_cnt : ℕ
  update_flag : Bool
deriving DecidableEq

/-- Constructor of `SyncParameterServerHandler`: `model0` is the raveled
parameter vector of the supplied model. `round_num = int(select_ratio *
client_num)`; Python `int()` truncates toward zero, which for the
nonnegative products that arise coincides with the floor. -/
def SyncParameterServerHandler.init (model0 : List ℚ) (client_num : ℕ)
    (select_ratio : ℚ) : SyncParameterServerHandler :=
  { client_num := client_num
    select_ratio := select_ratio
    round_num := (⌊select_ratio * (client_num : ℚ)⌋).toNat
    buffer := model0
    model := model0
    client_buffer_cache := List.replicate client_num none
    buffer_cnt := 0
    update_flag := false }

/-- `SyncParameterServerHandler.receive`. On ParameterUpdate: drop the
message if the sender's cache slot is occupied, otherwise count and store
the payload, and on reaching `round_num` install the mean of the stacked
cache into the buffer and the model, reset the cache and counter and set
`update_flag`. Any other message kind raises
`Exception("Undefined message type!")`. -/
def SyncParameterServerHandler.receive (s : SyncParameterServerHandler)
    (sender : ℤ) (message_code : MessageCode) (payload : List ℚ) :
    SyncParameterServerHandler × Option PyError :=
  match message_code with
  | .ParameterUpdate =>
    match pyGet s.client_buffer_cache (sender - 1) with
    | none => (s, some .indexError)
    | some (some _) => (s, none)
    | some none =>
      let s1 := { s with
        buffer_cnt := s.buffer_cnt + 1
        client_buffer_cache :=
          pySet s.client_buffer_cache (sender - 1) (some payload) }
      if s1.buffer_cnt = s1.round_num then
        match stackMean s1.client_buffer_cache with
        | none => (s1, some .typeError)
        | some m =>
          if m.length = s1.buffer.length then
            ({ s1 with
              buffer := m
              model := m
              buffer_cnt := 0
              client_buffer_cache := List.replicate s1.client_num none
              update_flag := true }, none)
          else (s1, some .runtimeError)
      else (s1, none)
  | _ => (s, some .undefinedMessageType)

/-- `SyncParameterServerHandler.is_updated`. -/
def SyncParameterServerHandler.is_updated (s : SyncParameterServerHandler) :
    Bool :=
  s.update_flag

/-- `SyncParameterServerHandler.start_round`. -/
def SyncParameterServerHandler.start_round (s : SyncParameterServerHandler) :
    SyncParameterServerHandler :=
  { s with update_flag := false }

/-- A message handed to `send_message`. -/
structure SentMsg where
  code : MessageCode
  payload : List ℚ
  dst : ℤ
deriving DecidableEq

/-- State of `AsyncParameterServerHandler` (its `client_buffer_cache` list
is never used and is omitted). -/
structure AsyncParameterServerHandler where
  buffer : List ℚ
  model : List ℚ
  alpha : ℚ
  decay : ℚ
deriving DecidableEq

/-- Constructor of `AsyncParameterServerHandler`: `alpha = 0.5`,
`decay = 0.9`. -/
def AsyncParameterServerHandler.init (model0 : List ℚ) :
    AsyncParameterServerHandler :=
  { buffer := model0, model := model0, alpha := 1/2, decay := 9/10 }

/-- The exponential merge `(1 - alpha) * buffer + alpha * params`,
elementwise. -/
def asyncMerge (alpha : ℚ) (buffer params : List ℚ) : List ℚ :=
  List.zipWith (fun b p => (1 - alpha) * b + alpha * p) buffer params

/-- `AsyncParameterServerHandler.update`: merge `model_list[0]` into the
buffer and propagate to the model handle. An empty list raises IndexError
at `model_list[0]`; a length mismatch raises at the tensor arithmetic. -/
def AsyncParameterServerHandler.update (s : AsyncParameterServerHandler)
    (model_list : List (List ℚ)) : AsyncParameterServerHandler × Option PyError :=
  match model_list with
  | [] => (s, some .indexError)
  | params :: _ =>
    if params.length = s.buffer.length then
      let nb := asyncMerge s.alpha s.buffer params
      ({ s with buffer := nb, model := nb }, none)
    else (s, some .runtimeError)

/-- `AsyncParameterServerHandler.receive`: ParameterUpdate merges the
parameter immediately; ParameterRequest replies to the sender with the
model; GradientUpdate raises NotImplementedError; Exit is a no-op. The
final `else: pass` of the source is unreachable over the four message
kinds. -/
def AsyncParameterServerHandler.receive (s : AsyncParameterServerHandler)
    (sender : ℤ) (message_code : MessageCode) (parameter : List ℚ) :
    AsyncParameterServerHandler × List SentMsg × Option PyError :=
  match message_code with
  | .ParameterUpdate =>
    let r := s.update [parameter]
    (r.1, [], r.2)
  | .ParameterRequest => (s, [⟨.ParameterUpdate, s.model, sender⟩], none)
  | .GradientUpdate => (s, [], some .notImplementedError)
  | .Exit => (s, [], none)

/-- Client-side state: the backend handler's raveled working vector. -/
structure ClientSyncTop where
  backend_buffer : List ℚ
deriving DecidableEq

/-- Abstract base method `ClientCommunicationTopology.synchronise`: raises
NotImplementedError. `ClientSyncTop` overrides `receive` and defines a
method named `synchronize`, but defines no method named `synchronise`, so
a call to `self.synchronise` on a `ClientSyncTop` dispatches here. -/
def ClientCommunicationTopology.synchronise (payload : List ℚ) :
    Except PyError SentMsg :=
  .error .notImplementedError

/-- `ClientSyncTop.synchronize`: send a ParameterUpdate message carrying
the given buffer. Modelled from the spec: `send_message` is not among the
sources; the spec states the message goes back to the server, rank 0. -/
def ClientSyncTop.synchronize (buffer : List ℚ) : SentMsg :=
  ⟨.ParameterUpdate, buffer, 0⟩

/-- `ClientSyncTop.receive`: install the payload as the backend's working
vector and train locally. Modelled from the spec: the backend handler and
its `train(epochs=2)` are external local-trainer capabilities, abstracted
as the function `train` from the installed vector to the trained vector. -/
def ClientSyncTop.receive (train : List ℚ → List ℚ) (c : ClientSyncTop)
    (sender : ℤ) (message_code : MessageCode) (payload : List ℚ) :
    ClientSyncTop :=
  ⟨train payload⟩

/-- Outcome of one iteration of the client run loop. -/
inductive RunOutcome where
  | exited
  | fatal (e : PyError) (c : ClientSyncTop)
  | awaiting (c : ClientSyncTop) (sent : List SentMsg)
deriving DecidableEq

/-- One iteration of `ClientSyncTop.run` on a decoded message: terminate
on Exit, otherwise `self.receive(...)` followed by
`self.synchronise(self._backend.buffer)`. -/
def ClientSyncTop.runStep (train : List ℚ → List ℚ) (c : ClientSyncTop)
    (sender : ℤ) (message_code : MessageCode) (payload : List ℚ) :
    RunOutcome :=
  if message_code = .Exit then .exited
  else
    let c1 := ClientSyncTop.receive train c sender message_code payload
    match ClientCommunicationTopology.synchronise c1.backend_buffer with
    | .error e => .fatal e c1
    | .ok m => .awaiting c1 [m]

/-- Feed a list of ParameterUpdate messages `(sender, payload)` to the
sync handler one at a time, as the server receive loop does, stopping at
the first raised exception. -/
def processList : SyncParameterServerHandler → List (ℤ × List ℚ) →
    SyncParameterServerHandler × Option PyError
  | s, [] => (s, none)
  | s, m :: rest =>
    match SyncParameterServerHandler.receive s m.1 .ParameterUpdate m.2 with
    | (s1, none) => processList s1 rest
    | (s1, some e) => (s1, some e)

/-- The cache updates performed by a list of accepted ParameterUpdate
messages: each message writes its payload into slot `sender - 1`. -/
def applyMsgs (c : List (Option (List ℚ))) (msgs : List (ℤ × List ℚ)) :
    List (Option (List ℚ)) :=
  msgs.foldl (fun acc m => pySet acc (m.1 - 1) (some m.2)) c

/-! Helper lemmas about Python indexing. -/

theorem pyIndex_nonneg {n : ℕ} {i : ℤ} (h0 : 0 ≤ i) (hn : i < (n : ℤ)) :
    pyIndex n i = some i.toNat := by
  unfold pyIndex
  rw [if_pos ⟨h0, hn⟩]

theorem pyIndex_neg_one {n : ℕ} (h : 1 ≤ n) :
    pyIndex n (-1) = some (n - 1) := by
  unfold pyIndex
  rw [if_neg (by omega), if_pos ⟨by omega, by omega⟩]
  congr 1
  omega

theorem pyGet_eq_some {α : Type} {l : List α} {i : ℤ} {b : α}
    (h : pyGet l i = some b) :
    ∃ j : ℕ, pyIndex l.length i = some j ∧ j < l.length ∧ l[j]? = some b := by
  unfold pyGet at h
  split at h
  next j hj =>
    obtain ⟨hlt, _⟩ := List.getElem?_eq_some.mp h
    exact ⟨j, hj, hlt, h⟩
  next => cases h

theorem pySet_of_index {α : Type} {l : List α} {i : ℤ} {j : ℕ} (a : α)
    (h : pyIndex l.length i = some j) : pySet l i a = l.set j a := by
  unfold pySet
  rw [h]

theorem pySet_of_none {α : Type} {l : List α} {i : ℤ} (a : α)
    (h : pyIndex l.length i = none) : pySet l i a = l := by
  unfold pySet
  rw [h]

theorem pyGet_pySet_same {α : Type} {l : List α} {i : ℤ} {b : α} (a : α)
    (h : pyGet l i = some b) : pyGet (pySet l i a) i = some a := by
  obtain ⟨j, hj, hlt, _⟩ := pyGet_eq_some h
  rw [pySet_of_index a hj]
  unfold pyGet
  rw [List.length_set, hj]
  show (l.set j a)[j]? = some a
  exact List.getElem?_set_self hlt

theorem pyIndex_nonneg_inv {n : ℕ} {i : ℤ} {j : ℕ} (h0 : 0 ≤ i)
    (h : pyIndex n i = some j) : j = i.toNat ∧ i < (n : ℤ) := by
  unfold pyIndex at h
  split_ifs at h with h1 h2
  · exact ⟨(Option.some.injEq _ _ ▸ h).symm, h1.2⟩
  · omega

theorem pyGet_pySet_ne {α : Type} {l : List α} {i j : ℤ} (a : α)
    (h0i : 0 ≤ i) (h0j : 0 ≤ j) (hne : i ≠ j) :
    pyGet (pySet l i a) j = pyGet l j := by
  cases hi : pyIndex l.length i with
  | none => rw [pySet_of_none a hi]
  | some ji =>
    rw [pySet_of_index a hi]
    unfold pyGet
    rw [List.length_set]
    cases hj : pyIndex l.length j with
    | none => rfl
    | some jj =>
      obtain ⟨hji, _⟩ := pyIndex_nonneg_inv h0i hi
      obtain ⟨hjj, _⟩ := pyIndex_nonneg_inv h0j hj
      show (l.set ji a)[jj]? = l[jj]?
      exact List.getElem?_set_ne (by omega)

theorem pySet_comm {α : Type} {l : List α} {i j : ℤ} (a b : α)
    (h0i : 0 ≤ i) (h0j : 0 ≤ j) (hne : i ≠ j) :
    pySet (pySet l i a) j b = pySet (pySet l j b) i a := by
  cases hi : pyIndex l.length i with
  | none =>
    rw [pySet_of_none a hi]
    cases hj : pyIndex l.length j with
    | none =>
      rw [pySet_of_none b hj, pySet_of_none a hi]
    | some jj =>
      rw [pySet_of_index b hj]
      have h2 : pySet (l.set jj b) i a = l.set jj b := by
        apply pySet_of_none
        rw [List.length_set, hi]
      rw [h2]
  | some ji =>
    rw [pySet_of_index a hi]
    cases hj : pyIndex l.length j with
    | none =>
      have h2 : pySet (l.set ji a) j b = l.set ji a := by
        apply pySet_of_none
        rw [List.length_set, hj]
      rw [h2, pySet_of_none b hj, pySet_of_index a hi]
    | some jj =>
      have h2 : pySet (l.set ji a) j b = (l.set ji a).set jj b := by
        apply pySet_of_index
        rw [List.length_set, hj]
      have h3 : pySet (l.set jj b) i a = (l.set jj b).set ji a := by
        apply pySet_of_index
        rw [List.length_set, hi]
      obtain ⟨hji, _⟩ := pyIndex_nonneg_inv h0i hi
      obtain ⟨hjj, _⟩ := pyIndex_nonneg_inv h0j hj
      rw [h2, pySet_of_index b hj, h3]
      exact List.set_comm a b l (by omega)

theorem pyGet_replicate_none {n : ℕ} {k : ℤ} (h1 : 1 ≤ k) (h2 : k ≤ (n : ℤ)) :
    pyGet (List.replicate n (none : Option (List ℚ))) (k - 1) = some none := by
  unfold pyGet
  rw [List.length_replicate, pyIndex_nonneg (by omega) (by omega)]
  show (List.replicate n (none : Option (List ℚ)))[(k - 1).toNat]? = some none
  rw [List.getElem?_replicate, if_pos (by omega)]

theorem receive_congr_index (s : SyncParameterServerHandler) (a b : ℤ)
    (p : List ℚ)
    (h : pyIndex s.client_buffer_cache.length (a - 1) =
      pyIndex s.client_buffer_cache.length (b - 1)) :
    SyncParameterServerHandler.receive s a .ParameterUpdate p =
      SyncParameterServerHandler.receive s b .ParameterUpdate p := by
  unfold SyncParameterServerHandler.receive pyGet pySet
  rw [h]

/-- C8: for every message kind other than ParameterUpdate (including
ParameterRequest, GradientUpdate and Exit), the sync handler's receive
raises the fatal protocol error `Exception("Undefined message type!")`
and leaves the handler state (cache, receivedCount, buffer, model handle,
updateFlag) unchanged. -/
theorem c8_sync_unknown_kind_fatal (s : SyncParameterServerHandler)
    (sender : ℤ) (k : MessageCode) (p : List ℚ)
    (hk : k ≠ .ParameterUpdate) :
    SyncParameterServerHandler.receive s sender k p =
      (s, some .undefinedMessageType) := by
  cases k with
  | ParameterUpdate => exact absurd rfl hk
  | ParameterRequest => rfl
  | GradientUpdate => rfl
  | Exit => rfl

/-- A concrete two-client sync handler state with quorum 2, used by the
concrete instantiations below. -/
def syncTwo : SyncParameterServerHandler :=
  { client_num := 2, select_ratio := 1, round_num := 2,
    buffer := [0, 0], model := [0, 0],
    client_buffer_cache := List.replicate 2 none,
    buffer_cnt := 0, update_flag := false }

/-- Witness for C8 at a concrete handler state and the Exit kind. -/
theorem c8_witness :
    SyncParameterServerHandler.receive syncTwo 1 .Exit [5, 6] =
      (syncTwo, some .undefinedMessageType) :=
  c8_sync_unknown_kind_fatal syncTwo 1 .Exit [5, 6] (by decide)

/-- C9: calling the abstract base handler's receive or update directly
fails with NotImplementedError, and delivering GradientUpdate to the async
handler fails with NotImplementedError while leaving the async handler's
buffer and model unchanged (and sending nothing). -/
theorem c9_unimplemented_operations (s : AsyncParameterServerHandler)
    (sender : ℤ) (p : List ℚ) :
    ParameterServerHandler.receive = .error .notImplementedError ∧
    ParameterServerHandler.update = .error .notImplementedError ∧
    AsyncParameterServerHandler.receive s sender .GradientUpdate p =
      (s, [], some .notImplementedError) :=
  ⟨rfl, rfl, rfl⟩

/-- C7: a message kind that is unexpected for the active handler is an
explicit failure, never a silent drop. For the sync handler every
non-ParameterUpdate kind raises; for the async handler the set of
unexpected kinds is empty, because the MessageCode enumeration consists
exactly of ParameterUpdate, ParameterRequest, GradientUpdate and Exit
(so the claim's async clause holds vacuously: the handler's trailing
silent branch is unreachable). -/
theorem c7_protocol_violation_fatal :
    (∀ (s : SyncParameterServerHandler) (sender : ℤ) (k : MessageCode)
      (p : List ℚ), k ≠ .ParameterUpdate →
      (SyncParameterServerHandler.receive s sender k p).2 =
        some .undefinedMessageType) ∧
    (∀ k : MessageCode, k = .ParameterUpdate ∨ k = .ParameterRequest ∨
      k = .GradientUpdate ∨ k = .Exit) := by
  constructor
  · intro s sender k p hk
    rw [c8_sync_unknown_kind_fatal s sender k p hk]
  · intro k
    cases k with
    | ParameterUpdate => exact Or.inl rfl
    | ParameterRequest => exact Or.inr (Or.inl rfl)
    | GradientUpdate => exact Or.inr (Or.inr (Or.inl rfl))
    | Exit => exact Or.inr (Or.inr (Or.inr rfl))

/-- Witness for C7 at a concrete state and the ParameterRequest kind. -/
theorem c7_witness :
    (SyncParameterServerHandler.receive syncTwo 1 .ParameterRequest
      [5, 6]).2 = some .undefinedMessageType :=
  c7_protocol_violation_fatal.1 syncTwo 1 .ParameterRequest [5, 6]
    (by decide)

/-- C3 (failing-input evaluation): on a non-Exit message the client run
loop installs the payload and trains, but then calls `self.synchronise`,
which dispatches to the abstract base method and raises
NotImplementedError instead of sending a ParameterUpdate back and
returning to the awaiting state: `ClientSyncTop` defines `synchronize`,
which never overrides the `synchronise` the run loop invokes. -/
theorem c3_run_step_raises :
    ClientSyncTop.runStep id ⟨[0]⟩ 0 .ParameterUpdate [1] =
      .fatal .notImplementedError ⟨[1]⟩ ∧
    ClientSyncTop.synchronize [1] = ⟨.ParameterUpdate, [1], 0⟩ :=
  ⟨rfl, rfl⟩

/-- C5: every ParameterUpdate received by the async handler turns the
buffer into `(1 - alpha) * buffer + alpha * payload` elementwise and
propagates it to the model handle, with no deduplication by sender; in
particular with `alpha = 0.5`, from buffer `[0, 0]` an update `[2, 4]`
yields `[1, 2]`, and a further update from the same rank with `[2, 0]`
yields `[3/2, 1]`. -/
theorem c5_async_exponential_merge (s : AsyncParameterServerHandler)
    (sender : ℤ) (p : List ℚ) (hp : p.length = s.buffer.length) :
    AsyncParameterServerHandler.receive s sender .ParameterUpdate p =
      ({ s with buffer := asyncMerge s.alpha s.buffer p,
                model := asyncMerge s.alpha s.buffer p }, [], none) ∧
    (AsyncParameterServerHandler.receive
      (AsyncParameterServerHandler.init [0, 0]) 1 .ParameterUpdate
      [2, 4]).1.buffer = [1, 2] ∧
    (AsyncParameterServerHandler.receive
      (AsyncParameterServerHandler.receive
        (AsyncParameterServerHandler.init [0, 0]) 1 .ParameterUpdate
        [2, 4]).1 1 .ParameterUpdate [2, 0]).1.buffer = [3/2, 1] := by
  have hu : AsyncParameterServerHandler.update s [p] =
      ({ s with buffer := asyncMerge s.alpha s.buffer p,
                model := asyncMerge s.alpha s.buffer p }, none) := by
    simp only [AsyncParameterServerHandler.update]
    rw [if_pos hp]
  refine ⟨?_, ?_, ?_⟩
  · simp only [AsyncParameterServerHandler.receive, hu]
  · norm_num [AsyncParameterServerHandler.receive,
      AsyncParameterServerHandler.update, AsyncParameterServerHandler.init,
      asyncMerge]
  · norm_num [AsyncParameterServerHandler.receive,
      AsyncParameterServerHandler.update, AsyncParameterServerHandler.init,
      asyncMerge]

/-- Witness for C5 at a concrete state and payload. -/
theorem c5_witness :
    (AsyncParameterServerHandler.receive
      (AsyncParameterServerHandler.init [0, 0]) 3 .ParameterUpdate
      [5, 7]).1.buffer = asyncMerge (1/2) [0, 0] [5, 7] := by
  have h := c5_async_exponential_merge (AsyncParameterServerHandler.init
    [0, 0]) 3 [5, 7] (by decide)
  rw [h.1]
  rfl

/-- C2: if a client's cache slot is already occupied, a further
ParameterUpdate from the same rank is dropped, leaving the whole handler
state (cache, receivedCount, global buffer, model handle, updateFlag)
unchanged with a normal return; and over a fresh-then-duplicate pair from
one rank before round completion, receivedCount grows by exactly one. -/
theorem c2_duplicate_suppression (sender : ℤ) (p1 p2 : List ℚ) :
    (∀ (s : SyncParameterServerHandler) (q : List ℚ),
      pyGet s.client_buffer_cache (sender - 1) = some (some q) →
      SyncParameterServerHandler.receive s sender .ParameterUpdate p2 =
        (s, none)) ∧
    (∀ s : SyncParameterServerHandler,
      pyGet s.client_buffer_cache (sender - 1) = some none →
      s.buffer_cnt + 1 ≠ s.round_num →
      (SyncParameterServerHandler.receive s sender .ParameterUpdate p1).2 =
        none ∧
      (SyncParameterServerHandler.receive s sender
        .ParameterUpdate p1).1.buffer_cnt = s.buffer_cnt + 1 ∧
      SyncParameterServerHandler.receive
        (SyncParameterServerHandler.receive s sender .ParameterUpdate p1).1
        sender .ParameterUpdate p2 =
        ((SyncParameterServerHandler.receive s sender .ParameterUpdate
          p1).1, none)) := by
  constructor
  · intro s q h
    simp only [SyncParameterServerHandler.receive, h]
  · intro s h hne
    have hr : SyncParameterServerHandler.receive s sender .ParameterUpdate
        p1 =
        ({ s with
            buffer_cnt := s.buffer_cnt + 1
            client_buffer_cache :=
              pySet s.client_buffer_cache (sender - 1) (some p1) },
          none) := by
      simp only [SyncParameterServerHandler.receive, h]
      rw [if_neg hne]
    have hdup : pyGet (pySet s.client_buffer_cache (sender - 1) (some p1))
        (sender - 1) = some (some p1) := pyGet_pySet_same (some p1) h
    refine ⟨by rw [hr], by rw [hr], ?_⟩
    rw [hr]
    simp only [SyncParameterServerHandler.receive, hdup]

/-- Witness for C2: a fresh update then a duplicate from rank 1 on the
concrete two-client state. -/
theorem c2_witness :
    (SyncParameterServerHandler.receive syncTwo 1 .ParameterUpdate
      [5, 6]).1.buffer_cnt = 0 + 1 ∧
    SyncParameterServerHandler.receive
      (SyncParameterServerHandler.receive syncTwo 1 .ParameterUpdate
        [5, 6]).1 1 .ParameterUpdate [7, 8] =
      ((SyncParameterServerHandler.receive syncTwo 1 .ParameterUpdate
        [5, 6]).1, none) := by
  have h := (c2_duplicate_suppression 1 [5, 6] [7, 8]).2 syncTwo
    (by decide) (by decide)
  exact ⟨h.2.1, h.2.2⟩

/-- C10: the sync handler's receive performs no bounds validation on the
sender rank. A ParameterUpdate with sender 0 (the server's own rank) is
processed exactly like one from client rank `clientCount`, because slot
index `0 - 1 = -1` resolves to the last cache entry; when that slot is
empty the contribution is accepted (stored, counted toward the quorum)
and the call does not fail. -/
theorem c10_sender_zero_wraps (s : SyncParameterServerHandler)
    (p : List ℚ) (hlen : s.client_buffer_cache.length = s.client_num)
    (hn : 1 ≤ s.client_num) :
    SyncParameterServerHandler.receive s 0 .ParameterUpdate p =
      SyncParameterServerHandler.receive s (s.client_num : ℤ)
        .ParameterUpdate p ∧
    (pyGet s.client_buffer_cache (-1) = some none →
      s.buffer_cnt + 1 ≠ s.round_num →
      SyncParameterServerHandler.receive s 0 .ParameterUpdate p =
        ({ s with
            buffer_cnt := s.buffer_cnt + 1
            client_buffer_cache :=
              s.client_buffer_cache.set (s.client_num - 1) (some p) },
          none)) := by
  have h01 : ((0 : ℤ) - 1) = -1 := by ring
  have hidx : pyIndex s.client_buffer_cache.length ((0 : ℤ) - 1) =
      pyIndex s.client_buffer_cache.length ((s.client_num : ℤ) - 1) := by
    rw [h01, hlen, pyIndex_neg_one hn,
      pyIndex_nonneg (by omega) (by omega)]
    congr 1
    omega
  constructor
  · exact receive_congr_index s 0 (s.client_num : ℤ) p hidx
  · intro hempty hne
    have hempty0 : pyGet s.client_buffer_cache ((0 : ℤ) - 1) = some none := by
      rw [h01]
      exact hempty
    have hset : pySet s.client_buffer_cache ((0 : ℤ) - 1) (some p) =
        s.client_buffer_cache.set (s.client_num - 1) (some p) := by
      apply pySet_of_index
      rw [h01, hlen, pyIndex_neg_one hn]
    simp only [SyncParameterServerHandler.receive, hempty0]
    rw [if_neg hne, hset]

/-- Witness for C10: sender 0 on the concrete two-client state fills the
last slot and counts toward the quorum. -/
theorem c10_witness :
    SyncParameterServerHandler.receive syncTwo 0 .ParameterUpdate [5, 6] =
      ({ syncTwo with
          buffer_cnt := 1
          client_buffer_cache := [none, some [5, 6]] }, none) :=
  (c10_sender_zero_wraps syncTwo [5, 6] (by decide) (by decide)).2
    (by decide) (by decide)

/-- C1 (failing-input evaluation): with clientCount = 2 and
selectRatio = 0.5 the quorum is `int(0.5 * 2) = 1`, yet processing the
single accepted contribution of the round crashes instead of averaging:
the aggregation stacks the whole cache, which still contains an empty
slot whenever the quorum is smaller than the client count, so receive
raises TypeError and the global buffer keeps its old value `[0, 0]`
rather than becoming the mean `[2, 4]` of the accepted payloads. -/
theorem c1_mean_crash_under_half_selection :
    SyncParameterServerHandler.init [0, 0] 2 (1/2) =
      { client_num := 2, select_ratio := 1/2, round_num := 1,
        buffer := [0, 0], model := [0, 0],
        client_buffer_cache := List.replicate 2 none,
        buffer_cnt := 0, update_flag := false } ∧
    (SyncParameterServerHandler.receive
      (SyncParameterServerHandler.init [0, 0] 2 (1/2)) 1 .ParameterUpdate
      [2, 4]).2 = some .typeError ∧
    (SyncParameterServerHandler.receive
      (SyncParameterServerHandler.init [0, 0] 2 (1/2)) 1 .ParameterUpdate
      [2, 4]).1.buffer = [0, 0] ∧
    meanVecs [[2, 4]] = [2, 4] := by
  have hprod : ((1 : ℚ)/2) * ((2 : ℕ) : ℚ) = 1 := by norm_num
  have hinit : SyncParameterServerHandler.init [0, 0] 2 (1/2) =
      { client_num := 2, select_ratio := 1/2, round_num := 1,
        buffer := [0, 0], model := [0, 0],
        client_buffer_cache := List.replicate 2 none,
        buffer_cnt := 0, update_flag := false } := by
    unfold SyncParameterServerHandler.init
    congr 1
    rw [hprod]
    norm_num
  refine ⟨hinit, ?_, ?_, ?_⟩
  · rw [hinit]
    decide
  · rw [hinit]
    decide
  · norm_num [meanVecs, sumVecs]

/-! Permutation invariance of the elementwise mean. -/

theorem vecAdd_comm (a b : List ℚ) : vecAdd a b = vecAdd b a := by
  unfold vecAdd
  induction a generalizing b with
  | nil => cases b <;> rfl
  | cons x xs ih =>
    cases b with
    | nil => rfl
    | cons y ys =>
      rw [List.zipWith_cons_cons, List.zipWith_cons_cons, add_comm, ih ys]

theorem vecAdd_assoc (a b c : List ℚ) :
    vecAdd (vecAdd a b) c = vecAdd a (vecAdd b c) := by
  unfold vecAdd
  induction a generalizing b c with
  | nil => rfl
  | cons x xs ih =>
    cases b with
    | nil => rfl
    | cons y ys =>
      cases c with
      | nil => rfl
      | cons z zs =>
        rw [List.zipWith_cons_cons, List.zipWith_cons_cons,
          List.zipWith_cons_cons, List.zipWith_cons_cons, add_assoc,
          ih ys zs]

theorem sumVecs_cons (v : List ℚ) {l : List (List ℚ)} (h : l ≠ []) :
    sumVecs (v :: l) = vecAdd v (sumVecs l) := by
  cases l with
  | nil => exact absurd rfl h
  | cons w ws => rfl

theorem sumVecs_perm {l1 l2 : List (List ℚ)} (h : l1.Perm l2) :
    sumVecs l1 = sumVecs l2 := by
  induction h with
  | nil => rfl
  | @cons x t1 t2 h ih =>
    cases t1 with
    | nil =>
      have ht : t2 = [] := h.symm.eq_nil
      subst ht
      rfl
    | cons w ws =>
      have ht2 : t2 ≠ [] := by
        intro he
        rw [he] at h
        have := h.eq_nil
        simp at this
      rw [sumVecs_cons x (by simp), sumVecs_cons x ht2, ih]
  | @swap x y l =>
    cases l with
    | nil => exact vecAdd_comm y x
    | cons w ws =>
      show vecAdd y (vecAdd x (sumVecs (w :: ws))) =
        vecAdd x (vecAdd y (sumVecs (w :: ws)))
      rw [← vecAdd_assoc, vecAdd_comm y x, vecAdd_assoc]
  | trans h1 h2 ih1 ih2 => exact ih1.trans ih2

theorem meanVecs_perm {l1 l2 : List (List ℚ)} (h : l1.Perm l2) :
    meanVecs l1 = meanVecs l2 := by
  unfold meanVecs
  rw [sumVecs_perm h, h.length_eq]

/-! The cache after a batch of accepted updates. -/

theorem applyMsgs_cons (c : List (Option (List ℚ))) (m : ℤ × List ℚ)
    (rest : List (ℤ × List ℚ)) :
    applyMsgs c (m :: rest) =
      applyMsgs (pySet c (m.1 - 1) (some m.2)) rest := rfl

theorem applyMsgs_concat (c : List (Option (List ℚ)))
    (msgs : List (ℤ × List ℚ)) (m : ℤ × List ℚ) :
    applyMsgs c (msgs ++ [m]) =
      pySet (applyMsgs c msgs) (m.1 - 1) (some m.2) := by
  unfold applyMsgs
  rw [List.foldl_append]
  rfl

theorem pyGet_applyMsgs_ne (msgs : List (ℤ × List ℚ)) :
    ∀ (c : List (Option (List ℚ))) (i : ℤ), 0 ≤ i →
    (∀ m ∈ msgs, 1 ≤ m.1 ∧ m.1 - 1 ≠ i) →
    pyGet (applyMsgs c msgs) i = pyGet c i := by
  induction msgs with
  | nil =>
    intro c i _ _
    rfl
  | cons m rest ih =>
    intro c i hi hm
    rw [applyMsgs_cons,
      ih _ i hi (fun x hx => hm x (List.mem_cons_of_mem m hx))]
    exact pyGet_pySet_ne _
      (by have := (hm m (List.mem_cons_self m rest)).1; omega) hi
      (hm m (List.mem_cons_self m rest)).2

theorem applyMsgs_perm {msgs1 msgs2 : List (ℤ × List ℚ)}
    (h : msgs1.Perm msgs2) :
    ∀ c : List (Option (List ℚ)),
    (msgs1.map Prod.fst).Pairwise (fun a b => a ≠ b) →
    (∀ m ∈ msgs1, 1 ≤ m.1) →
    applyMsgs c msgs1 = applyMsgs c msgs2 := by
  induction h with
  | nil =>
    intro c _ _
    rfl
  | @cons x t1 t2 h ih =>
    intro c hp h1
    rw [applyMsgs_cons, applyMsgs_cons]
    refine ih _ ?_ ?_
    · rw [List.map_cons] at hp
      exact (List.pairwise_cons.mp hp).2
    · intro m hm
      exact h1 m (List.mem_cons_of_mem x hm)
  | @swap x y l =>
    intro c hp h1
    rw [applyMsgs_cons, applyMsgs_cons, applyMsgs_cons, applyMsgs_cons]
    have hxy : y.1 ≠ x.1 := by
      rw [List.map_cons, List.map_cons] at hp
      exact (List.pairwise_cons.mp hp).1 x.1 (List.mem_cons_self _ _)
    have h1y : 1 ≤ y.1 := h1 y (List.mem_cons_self _ _)
    have h1x : 1 ≤ x.1 :=
      h1 x (List.mem_cons_of_mem _ (List.mem_cons_self _ _))
    rw [pySet_comm (some y.2) (some x.2) (by omega) (by omega) (by omega)]
  | trans hp1 hp2 ih1 ih2 =>
    intro c hp hm
    rw [ih1 c hp hm]
    refine ih2 c ?_ ?_
    · exact (List.Perm.pairwise_iff (fun hab => Ne.symm hab)
        (hp1.map Prod.fst)).mp hp
    · intro m hm2
      exact hm m (hp1.mem_iff.mpr hm2)

/-! Characterization of a full round of the server receive loop. -/

theorem processList_cons (s : SyncParameterServerHandler) (m : ℤ × List ℚ)
    (rest : List (ℤ × List ℚ)) {s1 : SyncParameterServerHandler}
    (h : SyncParameterServerHandler.receive s m.1 .ParameterUpdate m.2 =
      (s1, none)) :
    processList s (m :: rest) = processList s1 rest := by
  simp only [processList, h]

theorem processList_cons_err (s : SyncParameterServerHandler)
    (m : ℤ × List ℚ) (rest : List (ℤ × List ℚ))
    {s1 : SyncParameterServerHandler} {e : PyError}
    (h : SyncParameterServerHandler.receive s m.1 .ParameterUpdate m.2 =
      (s1, some e)) :
    processList s (m :: rest) = (s1, some e) := by
  simp only [processList, h]

theorem receive_accept (s : SyncParameterServerHandler) (sender : ℤ)
    (p : List ℚ)
    (h : pyGet s.client_buffer_cache (sender - 1) = some none)
    (hne : s.buffer_cnt + 1 ≠ s.round_num) :
    SyncParameterServerHandler.receive s sender .ParameterUpdate p =
      ({ s with
          buffer_cnt := s.buffer_cnt + 1
          client_buffer_cache :=
            pySet s.client_buffer_cache (sender - 1) (some p) }, none) := by
  simp only [SyncParameterServerHandler.receive, h]
  rw [if_neg hne]

theorem receive_trigger (s : SyncParameterServerHandler) (sender : ℤ)
    (p : List ℚ)
    (h : pyGet s.client_buffer_cache (sender - 1) = some none)
    (hq : s.buffer_cnt + 1 = s.round_num) :
    SyncParameterServerHandler.receive s sender .ParameterUpdate p =
      (match stackMean (pySet s.client_buffer_cache (sender - 1) (some p))
        with
       | none =>
         ({ s with
             buffer_cnt := s.buffer_cnt + 1
             client_buffer_cache :=
               pySet s.client_buffer_cache (sender - 1) (some p) },
           some .typeError)
       | some mv =>
         if mv.length = s.buffer.length then
           ({ s with
               buffer := mv
               model := mv
               buffer_cnt := 0
               client_buffer_cache := List.replicate s.client_num none
               update_flag := true }, none)
         else
           ({ s with
               buffer_cnt := s.buffer_cnt + 1
               client_buffer_cache :=
                 pySet s.client_buffer_cache (sender - 1) (some p) },
             some .runtimeError)) := by
  simp only [SyncParameterServerHandler.receive, h]
  rw [if_pos hq]

theorem processList_fill (msgs : List (ℤ × List ℚ)) :
    ∀ s : SyncParameterServerHandler,
    (∀ m ∈ msgs,
      pyGet s.client_buffer_cache (m.1 - 1) = some none ∧ 1 ≤ m.1) →
    (msgs.map Prod.fst).Pairwise (fun a b => a ≠ b) →
    s.buffer_cnt + msgs.length < s.round_num →
    processList s msgs =
      ({ s with
          client_buffer_cache := applyMsgs s.client_buffer_cache msgs
          buffer_cnt := s.buffer_cnt + msgs.length }, none) := by
  induction msgs with
  | nil =>
    intro s _ _ _
    rfl
  | cons m rest ih =>
    intro s hmem hp hcnt
    obtain ⟨hslot, hm1⟩ := hmem m (List.mem_cons_self m rest)
    rw [List.length_cons] at hcnt
    have hrec := receive_accept s m.1 m.2 hslot (by omega)
    rw [processList_cons s m rest hrec]
    rw [ih _ ?hmem ?hp ?hcnt]
    case hmem =>
      intro x hx
      obtain ⟨hxs, hx1⟩ := hmem x (List.mem_cons_of_mem m hx)
      refine ⟨?_, hx1⟩
      show pyGet (pySet s.client_buffer_cache (m.1 - 1) (some m.2))
        (x.1 - 1) = some none
      rw [pyGet_pySet_ne (some m.2) (by omega) (by omega) ?_]
      · exact hxs
      · have hne : m.1 ≠ x.1 := by
          rw [List.map_cons] at hp
          exact (List.pairwise_cons.mp hp).1 x.1
            (List.mem_map_of_mem Prod.fst hx)
        omega
    case hp =>
      rw [List.map_cons] at hp
      exact (List.pairwise_cons.mp hp).2
    case hcnt =>
      show s.buffer_cnt + 1 + rest.length < s.round_num
      omega
    show ({ s with
        client_buffer_cache :=
          applyMsgs (pySet s.client_buffer_cache (m.1 - 1) (some m.2)) rest
        buffer_cnt := s.buffer_cnt + 1 + rest.length }, none) =
      ({ s with
          client_buffer_cache := applyMsgs s.client_buffer_cache (m :: rest)
          buffer_cnt := s.buffer_cnt + (m :: rest).length }, none)
    rw [applyMsgs_cons, List.length_cons,
      show s.buffer_cnt + 1 + rest.length = s.buffer_cnt +
        (rest.length + 1) by omega]

theorem processList_append_ok {l1 : List (ℤ × List ℚ)} :
    ∀ {s s1 : SyncParameterServerHandler},
    processList s l1 = (s1, none) →
    ∀ l2, processList s (l1 ++ l2) = processList s1 l2 := by
  induction l1 with
  | nil =>
    intro s s1 h l2
    have hs : s = s1 := congrArg Prod.fst h
    subst hs
    rfl
  | cons m rest ih =>
    intro s s1 h l2
    rcases hr : SyncParameterServerHandler.receive s m.1 .ParameterUpdate
      m.2 with ⟨s2, e⟩
    cases e with
    | none =>
      rw [processList_cons s m rest hr] at h
      rw [List.cons_append, processList_cons s m _ hr]
      exact ih h l2
    | some e2 =>
      rw [processList_cons_err s m rest hr] at h
      exact absurd h (by simp)


/-- The state and outcome produced by the aggregation step of the
quorum-th accepted contribution, as a function of the cache contents at
that moment. -/
def roundResult (s : SyncParameterServerHandler)
    (c2 : List (Option (List ℚ))) :
    SyncParameterServerHandler × Option PyError :=
  match stackMean c2 with
  | none =>
    ({ s with client_buffer_cache := c2, buffer_cnt := s.round_num },
      some .typeError)
  | some mv =>
    if mv.length = s.buffer.length then
      ({ s with
          buffer := mv
          model := mv
          buffer_cnt := 0
          client_buffer_cache := List.replicate s.client_num none
          update_flag := true }, none)
    else
      ({ s with client_buffer_cache := c2, buffer_cnt := s.round_num },
        some .runtimeError)

theorem processList_round (s : SyncParameterServerHandler)
    (msgs : List (ℤ × List ℚ))
    (hc : s.client_buffer_cache = List.replicate s.client_num none)
    (hcnt : s.buffer_cnt = 0)
    (hmem : ∀ m ∈ msgs, 1 ≤ m.1 ∧ m.1 ≤ (s.client_num : ℤ))
    (hp : (msgs.map Prod.fst).Pairwise (fun a b => a ≠ b))
    (hlen : msgs.length = s.round_num)
    (hpos : 1 ≤ s.round_num) :
    processList s msgs =
      roundResult s (applyMsgs s.client_buffer_cache msgs) := by
  rcases List.eq_nil_or_concat msgs with hnil | ⟨l1, mlast, hcat⟩
  · subst hnil
    simp at hlen
    omega
  rw [List.concat_eq_append] at hcat
  subst hcat
  rw [List.length_append, List.length_cons, List.length_nil] at hlen
  have hempty : ∀ m ∈ l1 ++ [mlast],
      pyGet s.client_buffer_cache (m.1 - 1) = some none ∧ 1 ≤ m.1 := by
    intro m hm
    obtain ⟨h1, h2⟩ := hmem m hm
    refine ⟨?_, h1⟩
    rw [hc]
    exact pyGet_replicate_none h1 h2
  have hplast : ∀ x ∈ l1, x.1 ≠ mlast.1 := by
    rw [List.map_append, List.pairwise_append] at hp
    intro x hx
    exact hp.2.2 x.1 (List.mem_map_of_mem Prod.fst hx) mlast.1
      (by simp)
  have hfill := processList_fill l1 s
    (fun m hm => hempty m (List.mem_append_left _ hm))
    (by
      rw [List.map_append, List.pairwise_append] at hp
      exact hp.1)
    (by omega)
  rw [processList_append_ok hfill [mlast]]
  have hmid_slot : pyGet (applyMsgs s.client_buffer_cache l1)
      (mlast.1 - 1) = some none := by
    rw [pyGet_applyMsgs_ne l1 s.client_buffer_cache (mlast.1 - 1)
      (by have := (hmem mlast (by simp)).1; omega)
      (fun x hx => ⟨(hmem x (List.mem_append_left _ hx)).1,
        by have := hplast x hx; omega⟩)]
    exact (hempty mlast (by simp)).1
  have htrig := receive_trigger
    { s with
        client_buffer_cache := applyMsgs s.client_buffer_cache l1
        buffer_cnt := s.buffer_cnt + l1.length }
    mlast.1 mlast.2 hmid_slot
    (show s.buffer_cnt + l1.length + 1 = s.round_num by omega)
  have hcat2 : pySet (applyMsgs s.client_buffer_cache l1) (mlast.1 - 1)
      (some mlast.2) = applyMsgs s.client_buffer_cache (l1 ++ [mlast]) :=
    (applyMsgs_concat s.client_buffer_cache l1 mlast).symm
  dsimp only at htrig
  rw [hcat2] at htrig
  cases hsm : stackMean (applyMsgs s.client_buffer_cache (l1 ++ [mlast]))
    with
  | none =>
    simp only [hsm] at htrig
    rw [processList_cons_err _ mlast [] htrig]
    simp only [roundResult, hsm]
    rw [show s.buffer_cnt + l1.length + 1 = s.round_num by omega]
  | some mv =>
    simp only [hsm] at htrig
    by_cases hml : mv.length = s.buffer.length
    · rw [if_pos hml] at htrig
      rw [processList_cons _ mlast [] htrig]
      simp only [roundResult, hsm]
      rw [if_pos hml]
      rfl
    · rw [if_neg hml] at htrig
      rw [processList_cons_err _ mlast [] htrig]
      simp only [roundResult, hsm]
      rw [if_neg hml,
        show s.buffer_cnt + l1.length + 1 = s.round_num by omega]

/-- C6: for a round's worth of ParameterUpdate messages from distinct
client ranks, delivered from a freshly reset handler in any order, the
resulting global buffer at the end of the round is identical for every
permutation of the delivery order: the outcome depends only on which
(sender, payload) pairs were accepted. -/
theorem c6_order_independence (s0 : SyncParameterServerHandler)
    (msgs1 msgs2 : List (ℤ × List ℚ)) (hperm : msgs1.Perm msgs2)
    (hc : s0.client_buffer_cache = List.replicate s0.client_num none)
    (hcnt : s0.buffer_cnt = 0)
    (hmem : ∀ m ∈ msgs1, 1 ≤ m.1 ∧ m.1 ≤ (s0.client_num : ℤ))
    (hp : (msgs1.map Prod.fst).Pairwise (fun a b => a ≠ b))
    (hlen : msgs1.length = s0.round_num) :
    (processList s0 msgs1).1.buffer = (processList s0 msgs2).1.buffer := by
  rcases Nat.eq_zero_or_pos s0.round_num with h0 | hpos
  · have h1 : msgs1 = [] := List.length_eq_zero.mp (by omega)
    have h2 : msgs2 = [] := List.length_eq_zero.mp
      (by rw [← hperm.length_eq]; omega)
    rw [h1, h2]
  · have happ := applyMsgs_perm hperm s0.client_buffer_cache hp
      (fun m hm => (hmem m hm).1)
    rw [processList_round s0 msgs1 hc hcnt hmem hp hlen hpos,
      processList_round s0 msgs2 hc hcnt ?hm2 ?hp2 ?hl2 hpos, happ]
    case hm2 =>
      intro m hm
      exact hmem m (hperm.mem_iff.mpr hm)
    case hp2 =>
      exact (List.Perm.pairwise_iff (fun hab => Ne.symm hab)
        (hperm.map Prod.fst)).mp hp
    case hl2 =>
      rw [← hperm.length_eq]
      exact hlen

/-- Witness for C6: the two orders of a concrete two-client round. -/
theorem c6_witness :
    (processList syncTwo [(1, [1, 2]), (2, [3, 4])]).1.buffer =
      (processList syncTwo [(2, [3, 4]), (1, [1, 2])]).1.buffer :=
  c6_order_independence syncTwo [(1, [1, 2]), (2, [3, 4])]
    [(2, [3, 4]), (1, [1, 2])] (by decide) rfl rfl (by decide) (by decide)
    (by decide)

/-! The multiset of payloads held by the cache at aggregation time. -/

theorem seqCache_eq_filterMap {c : List (Option (List ℚ))} :
    ∀ {vs : List (List ℚ)}, seqCache c = some vs → vs = c.filterMap id := by
  induction c with
  | nil =>
    intro vs h
    simp only [seqCache] at h
    cases h
    rfl
  | cons a t ih =>
    intro vs h
    cases a with
    | none =>
      simp only [seqCache] at h
      cases h
    | some v =>
      cases ht : seqCache t with
      | none =>
        simp only [seqCache, ht] at h
        cases h
      | some ws =>
        simp only [seqCache, ht] at h
        cases h
        simp only [List.filterMap_cons, id]
        rw [ih ht]

theorem filterMap_set_fresh :
    ∀ (cs : List (Option (List ℚ))) (j : ℕ) (p : List ℚ),
    cs[j]? = some none →
    ((cs.set j (some p)).filterMap id).Perm (p :: cs.filterMap id) := by
  intro cs
  induction cs with
  | nil =>
    intro j p h
    simp at h
  | cons a t ih =>
    intro j p h
    cases j with
    | zero =>
      simp only [List.getElem?_cons_zero] at h
      cases h
      simp only [List.set_cons_zero, List.filterMap_cons, id]
      exact List.Perm.refl _
    | succ n =>
      rw [List.getElem?_cons_succ] at h
      rw [List.set_cons_succ]
      cases a with
      | none =>
        simp only [List.filterMap_cons, id]
        exact ih n p h
      | some b =>
        simp only [List.filterMap_cons, id]
        exact (List.Perm.cons b (ih n p h)).trans (List.Perm.swap p b _)

theorem filterMap_applyMsgs (msgs : List (ℤ × List ℚ)) :
    ∀ c : List (Option (List ℚ)),
    (∀ m ∈ msgs, pyGet c (m.1 - 1) = some none ∧ 1 ≤ m.1) →
    (msgs.map Prod.fst).Pairwise (fun a b => a ≠ b) →
    ((applyMsgs c msgs).filterMap id).Perm
      (msgs.map Prod.snd ++ c.filterMap id) := by
  induction msgs with
  | nil =>
    intro c _ _
    exact List.Perm.refl _
  | cons m rest ih =>
    intro c hmem hp
    obtain ⟨hslot, hm1⟩ := hmem m (List.mem_cons_self m rest)
    obtain ⟨j, hj, hlt, hget⟩ := pyGet_eq_some hslot
    rw [applyMsgs_cons]
    have step1 := ih (pySet c (m.1 - 1) (some m.2)) ?hmem2 ?hp2
    case hmem2 =>
      intro x hx
      obtain ⟨hxs, hx1⟩ := hmem x (List.mem_cons_of_mem m hx)
      refine ⟨?_, hx1⟩
      rw [pyGet_pySet_ne (some m.2) (by omega) (by omega) ?_]
      · exact hxs
      · have hne : m.1 ≠ x.1 := by
          rw [List.map_cons] at hp
          exact (List.pairwise_cons.mp hp).1 x.1
            (List.mem_map_of_mem Prod.fst hx)
        omega
    case hp2 =>
      rw [List.map_cons] at hp
      exact (List.pairwise_cons.mp hp).2
    have step2 : ((pySet c (m.1 - 1) (some m.2)).filterMap id).Perm
        (m.2 :: c.filterMap id) := by
      rw [pySet_of_index _ hj]
      exact filterMap_set_fresh c j m.2 hget
    refine step1.trans ?_
    refine (step2.append_left (rest.map Prod.snd)).trans ?_
    exact @List.perm_middle _ m.2 (rest.map Prod.snd) (c.filterMap id)

theorem filterMap_replicate_none (n : ℕ) :
    (List.replicate n (none : Option (List ℚ))).filterMap id = [] := by
  induction n with
  | zero => rfl
  | succ k ih =>
    rw [List.replicate_succ, List.filterMap_cons]
    exact ih

theorem stackMean_some {c : List (Option (List ℚ))} {mv : List ℚ}
    (h : stackMean c = some mv) :
    ∃ vs, seqCache c = some vs ∧ mv = meanVecs vs := by
  unfold stackMean at h
  split at h
  · cases h
  · cases h
  · next v vs hsq =>
    split at h
    · cases h
      exact ⟨v :: vs, hsq, rfl⟩
    · cases h

/-- Evaluation of the constructor at clientCount 2, selectRatio 0.5:
the derived quorum is 1. -/
theorem init_two_half_eq :
    SyncParameterServerHandler.init [0, 0] 2 (1/2) =
      { client_num := 2, select_ratio := 1/2, round_num := 1,
        buffer := [0, 0], model := [0, 0],
        client_buffer_cache := List.replicate 2 none,
        buffer_cnt := 0, update_flag := false } := by
  unfold SyncParameterServerHandler.init
  congr 1
  rw [show ((1 : ℚ)/2) * ((2 : ℕ) : ℚ) = 1 by norm_num]
  norm_num

/-- C4 (counterexample): with clientCount 2 and selectRatio 0.5, the
quorum-th (here first) accepted contribution does not produce the claimed
post-state: aggregation raises TypeError on the half-empty cache, so
updateFlag stays false, the accepted payload stays in the cache, and
receivedCount stays at the quorum instead of 0. -/
theorem c4_counterexample_crash :
    ((SyncParameterServerHandler.receive
      (SyncParameterServerHandler.init [0, 0] 2 (1/2)) 1 .ParameterUpdate
      [2, 4]).1.update_flag = false) ∧
    ((SyncParameterServerHandler.receive
      (SyncParameterServerHandler.init [0, 0] 2 (1/2)) 1 .ParameterUpdate
      [2, 4]).1.client_buffer_cache = [some [2, 4], none]) ∧
    ((SyncParameterServerHandler.receive
      (SyncParameterServerHandler.init [0, 0] 2 (1/2)) 1 .ParameterUpdate
      [2, 4]).1.buffer_cnt = 1) := by
  rw [init_two_half_eq]
  exact ⟨by decide, by decide, by decide⟩

/-- C4 (amended): provided the aggregation performed by the quorum-th
accepted contribution returns without raising (which on this code forces
every cache slot to be filled, i.e. quorum = clientCount): immediately
after that contribution updateFlag is true, every cache slot is empty and
receivedCount is 0; after start_round updateFlag is false; and a full
round of fresh updates processed from a reset handler that returns
without raising installs exactly the elementwise mean of the new payloads
into the buffer and the model handle, independent of any earlier round's
data. -/
theorem c4_round_reset :
    (∀ (s : SyncParameterServerHandler) (sender : ℤ) (p : List ℚ),
      pyGet s.client_buffer_cache (sender - 1) = some none →
      s.buffer_cnt + 1 = s.round_num →
      (SyncParameterServerHandler.receive s sender .ParameterUpdate p).2 =
        none →
      (SyncParameterServerHandler.receive s sender
        .ParameterUpdate p).1.update_flag = true ∧
      (SyncParameterServerHandler.receive s sender
        .ParameterUpdate p).1.client_buffer_cache =
        List.replicate s.client_num none ∧
      (SyncParameterServerHandler.receive s sender
        .ParameterUpdate p).1.buffer_cnt = 0) ∧
    (∀ s : SyncParameterServerHandler,
      (SyncParameterServerHandler.start_round s).update_flag = false) ∧
    (∀ (s0 : SyncParameterServerHandler) (msgs : List (ℤ × List ℚ)),
      s0.client_buffer_cache = List.replicate s0.client_num none →
      s0.buffer_cnt = 0 →
      (∀ m ∈ msgs, 1 ≤ m.1 ∧ m.1 ≤ (s0.client_num : ℤ)) →
      (msgs.map Prod.fst).Pairwise (fun a b => a ≠ b) →
      msgs.length = s0.round_num →
      1 ≤ s0.round_num →
      (processList s0 msgs).2 = none →
      (processList s0 msgs).1.buffer = meanVecs (msgs.map Prod.snd) ∧
      (processList s0 msgs).1.model = meanVecs (msgs.map Prod.snd)) := by
  refine ⟨?_, fun s => rfl, ?_⟩
  · intro s sender p hslot hq hok
    have htrig := receive_trigger s sender p hslot hq
    cases hsm : stackMean (pySet s.client_buffer_cache (sender - 1)
      (some p)) with
    | none =>
      simp only [hsm] at htrig
      rw [htrig] at hok
      simp at hok
    | some mv =>
      simp only [hsm] at htrig
      by_cases hml : mv.length = s.buffer.length
      · rw [if_pos hml] at htrig
        rw [htrig]
        exact ⟨rfl, rfl, rfl⟩
      · rw [if_neg hml] at htrig
        rw [htrig] at hok
        simp at hok
  · intro s0 msgs hc hcnt hmem hp hlen hpos hok
    rw [processList_round s0 msgs hc hcnt hmem hp hlen hpos] at hok ⊢
    cases hsm : stackMean (applyMsgs s0.client_buffer_cache msgs) with
    | none =>
      simp only [roundResult, hsm] at hok
      cases hok
    | some mv =>
      by_cases hml : mv.length = s0.buffer.length
      · simp only [roundResult, hsm] at hok ⊢
        rw [if_pos hml] at hok
        rw [if_pos hml]
        obtain ⟨vs, hsq, hmv⟩ := stackMean_some hsm
        have hvs := seqCache_eq_filterMap hsq
        have hfm := filterMap_applyMsgs msgs s0.client_buffer_cache
          (fun m hm => ⟨by
            rw [hc]
            exact pyGet_replicate_none (hmem m hm).1 (hmem m hm).2,
            (hmem m hm).1⟩) hp
        have hemp : s0.client_buffer_cache.filterMap id = [] := by
          rw [hc]
          exact filterMap_replicate_none _
        rw [hemp, List.append_nil] at hfm
        have hfinal : mv = meanVecs (msgs.map Prod.snd) := by
          rw [hmv, hvs]
          exact meanVecs_perm hfm
        exact ⟨hfinal, hfinal⟩
      · simp only [roundResult, hsm] at hok
        rw [if_neg hml] at hok
        simp at hok

/-- Witness for C4 at a concrete two-client round completing normally. -/
theorem c4_witness :
    (processList syncTwo [(1, [1, 2]), (2, [3, 4])]).1.buffer =
      meanVecs [[1, 2], [3, 4]] :=
  (c4_round_reset.2.2 syncTwo [(1, [1, 2]), (2, [3, 4])] rfl rfl
    (by decide) (by decide) (by decide) (by decide) (by decide)).1
